import Mathlib

/-!
Verification of the AWS permission-boundary scanner (`src/gum.py`).

The Python program is shallowly embedded: its pure string manipulations
become Lean functions on `List Char` / `String`, its network-dependent
steps (directory listing, credential exchange, role enumeration) become
explicit outcome parameters, and the thread pool's lock-guarded updates
become an explicit fold over a completion order, each `with self.lock`
critical section being one atomic step.
-/

namespace Gum

/-- Embedding of the `RoleInfo` dataclass (gum.py lines 25-30).
The `has_permission_boundary` field is a string in the source
("Exists", "Missing", "N/A", "Error"); we keep it a string. -/
structure RoleInfo where
  account_id : String
  account_name : String
  role_name : String
  has_permission_boundary : String
deriving DecidableEq, Repr

/-- An account as produced by `get_all_active_accounts` (gum.py lines 53-57). -/
structure Account where
  Id : String
  Name : String
  Email : String
deriving DecidableEq, Repr

/-- A raw directory entry before the ACTIVE filter (gum.py line 51-52):
the upstream `list_accounts` pages carry a `Status` field. -/
structure RawAccount where
  Id : String
  Name : String
  Email : String
  Status : String
deriving DecidableEq, Repr

/-- A role as yielded by the IAM `list_roles` paginator (gum.py lines 117-123):
a name plus an optional permissions-boundary ARN (`none` models the
`'PermissionsBoundary' in role` key being absent). -/
structure RawRole where
  RoleName : String
  PermissionsBoundaryArn : Option String
deriving DecidableEq, Repr

/-- Embedding of Python's `str.split(sep)` for a one-character separator,
on the character list of the string.  `splitOnChar sep l` is never empty
and concatenating its segments with `sep` between them gives back `l`,
exactly like Python's split. -/
def splitOnChar (sep : Char) : List Char → List (List Char)
  | [] => [[]]
  | c :: rest =>
    match splitOnChar sep rest with
    | [] => [[]]
    | seg :: segs => if c = sep then [] :: seg :: segs else (c :: seg) :: segs

/-- The classifier of gum.py lines 122-126: with no boundary attached the
role is not a match; otherwise the short name `boundary_arn.split('/')[-1]`
is compared for exact (byte-wise, hence case-sensitive) equality with the
configured target boundary name. -/
def classify (boundaryRef : Option String) (target : String) : Bool :=
  match boundaryRef with
  | none => false
  | some arn => ((splitOnChar '/' arn.data).getLastD []) == target.data

/-- Whether an enumerated role matches the target boundary (gum.py lines 122-126). -/
def roleMatches (target : String) (r : RawRole) : Bool :=
  classify r.PermissionsBoundaryArn target

/-- The character of a decimal digit (0 ↦ '0', …, 9 ↦ '9'). -/
def decDigitChar (d : Nat) : Char :=
  match d with
  | 0 => '0' | 1 => '1' | 2 => '2' | 3 => '3' | 4 => '4'
  | 5 => '5' | 6 => '6' | 7 => '7' | 8 => '8' | 9 => '9'
  | _ => '*'

/-- Little-endian decimal digits of `n`, computed with explicit fuel so the
recursion is structural (first argument is the fuel, second the number). -/
def natDigitsAux : Nat → Nat → List Nat
  | 0, _ => []
  | _ + 1, 0 => []
  | fuel + 1, n + 1 => ((n + 1) % 10) :: natDigitsAux fuel ((n + 1) / 10)

/-- Little-endian decimal digits of `n` (empty for 0). -/
def natDigits (n : Nat) : List Nat := natDigitsAux n n

/-- Embedding of Python's `str(n)` / f-string interpolation of a
non-negative integer: its usual decimal representation. -/
def natDecimalRepr (n : Nat) : String :=
  if n = 0 then "0" else ((natDigits n).map decDigitChar).reverse.asString

/-- Outcome of the credential exchange for one account, as seen by
`assume_role_in_account` (gum.py lines 66-88): either the STS response's
credentials, or an exception carrying a message. -/
inductive StsOutcome where
  | ok (accessKeyId secretAccessKey sessionToken : String)
  | exn (msg : String)
deriving DecidableEq, Repr

/-- The delegated session built from the STS credentials (gum.py lines 78-82). -/
structure Session where
  aws_access_key_id : String
  aws_secret_access_key : String
  aws_session_token : String
deriving DecidableEq, Repr

/-- The AssumeRole request constructed by `assume_role_in_account`
(gum.py lines 70-75). -/
structure StsCall where
  RoleArn : String
  RoleSessionName : String
deriving DecidableEq, Repr

/-- The session label of gum.py line 74:
`f"permission-boundary-scan-{int(time.time())}"`, where `now` is the
current epoch time truncated to whole seconds. -/
def sessionLabel (now : Nat) : String :=
  "permission-boundary-scan-" ++ natDecimalRepr now

/-- Embedding of `assume_role_in_account` (gum.py lines 66-88).  `now` is
the epoch-second clock reading at the call and `sts` the outcome of the
`assume_role` network call.  Returns the request it constructed together
with the result: the delegated session on success, `none` on any
exception (the bare `except Exception: return None`). -/
def assume_role_in_account (role_to_assume account_id : String) (now : Nat)
    (sts : StsOutcome) : StsCall × Option Session :=
  let call : StsCall :=
    { RoleArn := "arn:aws:iam::" ++ account_id ++ ":role/" ++ role_to_assume,
      RoleSessionName := sessionLabel now }
  match sts with
  | .ok ak sk tok =>
    (call, some { aws_access_key_id := ak, aws_secret_access_key := sk,
                  aws_session_token := tok })
  | .exn _ => (call, none)

/-- Outcome of enumerating an account's roles through the `list_roles`
paginator (gum.py lines 112-132): either the full finite listing, or an
exception raised mid-enumeration after some prefix of roles was already
yielded (the prefix is recorded only to show the code discards it). -/
inductive EnumOutcome where
  | ok (roles : List RawRole)
  | exnAfter (yielded : List RawRole) (msg : String)
deriving DecidableEq, Repr

/-- Outcome of the credential-delegation step of one account scan:
`assume_role_in_account` returned a session, or it returned `None`. -/
inductive AssumeOutcome where
  | granted
  | denied
deriving DecidableEq, Repr

/-- The ACCESS_DENIED sentinel of gum.py lines 101-106. -/
def accessDeniedSentinel (account_id account_name : String) : RoleInfo :=
  { account_id := account_id, account_name := account_name,
    role_name := "ACCESS_DENIED", has_permission_boundary := "N/A" }

/-- The Missing sentinel of gum.py lines 136-141, whose role name embeds
the total number of roles enumerated in the account. -/
def missingSentinel (account_id account_name : String) (total_roles : Nat) : RoleInfo :=
  { account_id := account_id, account_name := account_name,
    role_name := "NO_ROLES_WITH_BOUNDARY (" ++ natDecimalRepr total_roles
      ++ " total roles)",
    has_permission_boundary := "Missing" }

/-- The Error sentinel of gum.py lines 146-151: the exception's message is
truncated to its first 50 characters (`str(e)[:50]`) and suffixed "...". -/
def errorSentinel (account_id account_name : String) (msg : String) : RoleInfo :=
  { account_id := account_id, account_name := account_name,
    role_name := "ERROR: " ++ msg.take 50 ++ "...",
    has_permission_boundary := "Error" }

/-- An Exists record for one matching role (gum.py lines 127-132). -/
def existsRecord (account_id account_name role_name : String) : RoleInfo :=
  { account_id := account_id, account_name := account_name,
    role_name := role_name, has_permission_boundary := "Exists" }

/-- Embedding of `scan_account_roles` (gum.py lines 90-153) for one
account.  `assumeRes` is what `assume_role_in_account` produced and
`enum` what the role paginator did when consulted:

* delegation denied ⇒ the single ACCESS_DENIED sentinel, the paginator is
  never consulted (gum.py lines 98-107);
* enumeration raises ⇒ the partial tallies are discarded and the single
  Error sentinel is returned (gum.py lines 145-151);
* enumeration succeeds ⇒ the roles whose boundary short name equals the
  target become Exists records; if there are none, the single Missing
  sentinel embedding the total role count (gum.py lines 112-143). -/
def scan_account_roles (target : String) (a : Account)
    (assumeRes : AssumeOutcome) (enum : EnumOutcome) : List RoleInfo :=
  match assumeRes with
  | .denied => [accessDeniedSentinel a.Id a.Name]
  | .granted =>
    match enum with
    | .exnAfter _yielded msg => [errorSentinel a.Id a.Name msg]
    | .ok roles =>
      let roles_with_boundary :=
        (roles.filter (roleMatches target)).map
          (fun r => existsRecord a.Id a.Name r.RoleName)
      if roles_with_boundary.isEmpty then
        [missingSentinel a.Id a.Name roles.length]
      else
        roles_with_boundary

/-- The per-account outcomes of the external services during one run: for
each account, what the credential exchange and the role paginator did. -/
structure ScanEnv where
  assumeOf : Account → AssumeOutcome
  enumOf : Account → EnumOutcome

/-- The record group one account's task publishes: `scan_account_roles`
evaluated at that account's own external outcomes, and nothing else's. -/
def accountGroup (target : String) (env : ScanEnv) (a : Account) : List RoleInfo :=
  scan_account_roles target a (env.assumeOf a) (env.enumOf a)

/-- The scanner's shared mutable state (gum.py lines 37-38 and 159-161):
the growing `self.results` list and the progress counter, both only ever
touched inside `with self.lock`. -/
structure SharedState where
  results : List RoleInfo
  counter : Nat
deriving DecidableEq, Repr

/-- One completion of `worker` (gum.py lines 155-163): the whole
`with self.lock` block — appending the account's records and advancing
the progress counter — is a single atomic step on the shared state. -/
def worker (target : String) (env : ScanEnv) (a : Account)
    (s : SharedState) : SharedState :=
  { results := s.results ++ accountGroup target env a,
    counter := s.counter + 1 }

/-- The observable shared state after the tasks in `completed` have
finished, in that completion order: since every mutation of the shared
state happens inside one lock-guarded `worker` step, every state a
concurrent reader can observe is `runWorkers` of some completion prefix. -/
def runWorkers (target : String) (env : ScanEnv) (completed : List Account)
    (s : SharedState) : SharedState :=
  completed.foldl (fun s a => worker target env a s) s

/-- Embedding of `get_all_active_accounts` (gum.py lines 42-64): the
directory listing either raises (any exception ⇒ empty list returned) or
yields pages of raw accounts, which are filtered to `Status == "ACTIVE"`
and projected to `{Id, Name, Email}`. -/
def get_all_active_accounts (dir : Except String (List RawAccount)) :
    List Account :=
  match dir with
  | .error _ => []
  | .ok entries =>
    (entries.filter (fun a => a.Status == "ACTIVE")).map
      (fun a => { Id := a.Id, Name := a.Name, Email := a.Email })

/-- Embedding of `scan_all_accounts` (gum.py lines 225-288).  `dir` is the
directory outcome, `sched` the completion order the thread pool happens to
realize, and `s` the scanner instance's shared state on entry.  With no
accounts the function returns early (`return`, i.e. Python `None`) without
dispatching any worker; otherwise it waits for all workers and returns
`self.results`.  The returned pair is (return value, final shared state). -/
def scan_all_accounts (target : String) (env : ScanEnv)
    (dir : Except String (List RawAccount))
    (sched : List Account → List Account)
    (s : SharedState) : Option (List RoleInfo) × SharedState :=
  let accounts := get_all_active_accounts dir
  if accounts.isEmpty then (none, s)
  else
    let s2 := runWorkers target env (sched accounts) s
    (some s2.results, s2)

/-! ### Helper lemmas about `splitOnChar` -/

theorem splitOnChar_ne_nil (sep : Char) (l : List Char) :
    splitOnChar sep l ≠ [] := by
  cases l with
  | nil => simp [splitOnChar]
  | cons c rest =>
    simp only [splitOnChar]
    cases h : splitOnChar sep rest with
    | nil => simp
    | cons seg segs =>
      by_cases hc : c = sep <;> simp [hc]

theorem splitOnChar_of_not_mem {sep : Char} {l : List Char} (h : sep ∉ l) :
    splitOnChar sep l = [l] := by
  induction l with
  | nil => rfl
  | cons c rest ih =>
    have hc : ¬c = sep := fun hcs => h (hcs ▸ List.mem_cons_self c rest)
    have hr : sep ∉ rest := fun hm => h (List.mem_cons_of_mem _ hm)
    simp [splitOnChar, ih hr, hc]

theorem two_le_splitOnChar_length {sep : Char} {l : List Char} (h : sep ∈ l) :
    2 ≤ (splitOnChar sep l).length := by
  induction l with
  | nil => cases h
  | cons c rest ih =>
    simp only [splitOnChar]
    cases hs : splitOnChar sep rest with
    | nil => exact absurd hs (splitOnChar_ne_nil sep rest)
    | cons seg segs =>
      by_cases hc : c = sep
      · simp [hc]
      · have hr : sep ∈ rest := by
          rcases List.mem_cons.mp h with h1 | h2
          · exact absurd h1.symm hc
          · exact h2
        have h2 := ih hr
        rw [hs] at h2
        simpa [hc] using h2

theorem getLastD_splitOnChar_append {sep : Char} (a : List Char)
    {b : List Char} (hb : sep ∉ b) :
    (splitOnChar sep (a ++ sep :: b)).getLastD [] = b := by
  induction a with
  | nil =>
    rw [List.nil_append]
    simp [splitOnChar, splitOnChar_of_not_mem hb]
  | cons c a2 ih =>
    simp only [List.cons_append, splitOnChar]
    cases hs : splitOnChar sep (a2 ++ sep :: b) with
    | nil => exact absurd hs (splitOnChar_ne_nil _ _)
    | cons seg segs =>
      have hlen : 2 ≤ (seg :: segs).length := by
        rw [← hs]
        exact two_le_splitOnChar_length (by simp)
      have hsegs : segs ≠ [] := by
        cases segs with
        | nil => simp at hlen
        | cons s2 ss => simp
      have hIH : (seg :: segs).getLastD [] = b := by rw [← hs]; exact ih
      show (if c = sep then [] :: seg :: segs
            else (c :: seg) :: segs).getLastD [] = b
      by_cases hc : c = sep
      · rw [if_pos hc]
        simpa [List.getLastD_cons] using hIH
      · rw [if_neg hc]
        cases segs with
        | nil => exact absurd rfl hsegs
        | cons s2 ss => simpa [List.getLastD_cons] using hIH

/-! ### Helper lemmas about the decimal representation -/

theorem natDigitsAux_eq_digits : ∀ fuel n : Nat, n ≤ fuel →
    natDigitsAux fuel n = Nat.digits 10 n := by
  intro fuel
  induction fuel with
  | zero =>
    intro n hn
    have : n = 0 := Nat.le_zero.mp hn
    rw [this]
    simp [natDigitsAux, Nat.digits_zero]
  | succ fuel ih =>
    intro n hn
    cases n with
    | zero => simp [natDigitsAux, Nat.digits_zero]
    | succ m =>
      have hdiv : (m + 1) / 10 ≤ fuel := by
        have h1 : (m + 1) / 10 < m + 1 :=
          Nat.div_lt_self (Nat.succ_pos m) (by norm_num)
        omega
      show ((m + 1) % 10) :: natDigitsAux fuel ((m + 1) / 10)
          = Nat.digits 10 (m + 1)
      rw [ih _ hdiv,
        Nat.digits_def' (by norm_num : (1 : ℕ) < 10) (Nat.succ_pos m)]

theorem natDigits_eq_digits (n : Nat) : natDigits n = Nat.digits 10 n :=
  natDigitsAux_eq_digits n n le_rfl

theorem decDigitChar_fin_inj :
    ∀ d1 d2 : Fin 10, decDigitChar d1.val = decDigitChar d2.val → d1 = d2 := by
  decide

theorem decDigitChar_inj {d1 d2 : Nat} (h1 : d1 < 10) (h2 : d2 < 10)
    (h : decDigitChar d1 = decDigitChar d2) : d1 = d2 := by
  have := decDigitChar_fin_inj ⟨d1, h1⟩ ⟨d2, h2⟩ h
  exact congrArg Fin.val this

theorem map_decDigitChar_inj : ∀ {l1 l2 : List Nat},
    (∀ d ∈ l1, d < 10) → (∀ d ∈ l2, d < 10) →
    l1.map decDigitChar = l2.map decDigitChar → l1 = l2 := by
  intro l1
  induction l1 with
  | nil =>
    intro l2 _ _ h
    cases l2 with
    | nil => rfl
    | cons e m => simp at h
  | cons d l ih =>
    intro l2 h1 h2 h
    cases l2 with
    | nil => simp at h
    | cons e m =>
      simp only [List.map_cons, List.cons.injEq] at h
      have hd : d = e :=
        decDigitChar_inj (h1 d (by simp)) (h2 e (by simp)) h.1
      have hm : l = m :=
        ih (fun x hx => h1 x (List.mem_cons_of_mem _ hx))
          (fun x hx => h2 x (List.mem_cons_of_mem _ hx)) h.2
      rw [hd, hm]

theorem natDecimalRepr_inj {n m : Nat}
    (h : natDecimalRepr n = natDecimalRepr m) : n = m := by
  unfold natDecimalRepr at h
  simp only [natDigits_eq_digits] at h
  by_cases hn : n = 0 <;> by_cases hm : m = 0
  · rw [hn, hm]
  · exfalso
    rw [if_pos hn, if_neg hm] at h
    have hl : ((Nat.digits 10 m).map decDigitChar).reverse = ["0".head] := by
      have := List.asString_eq.mp h.symm
      simpa using this
    have hmap : (Nat.digits 10 m).map decDigitChar = ['0'] := by
      have := congrArg List.reverse hl
      simpa using this
    have hdig : Nat.digits 10 m = [0] := by
      apply map_decDigitChar_inj
        (fun d hd => Nat.digits_lt_base (by norm_num) hd)
        (fun d hd => by simp at hd; omega)
      simpa [decDigitChar] using hmap
    have := congrArg (Nat.ofDigits 10) hdig
    rw [Nat.ofDigits_digits] at this
    simp [Nat.ofDigits] at this
    exact hm this
  · exfalso
    rw [if_neg hn, if_pos hm] at h
    have hl : ((Nat.digits 10 n).map decDigitChar).reverse = ["0".head] := by
      have := List.asString_eq.mp h
      simpa using this
    have hmap : (Nat.digits 10 n).map decDigitChar = ['0'] := by
      have := congrArg List.reverse hl
      simpa using this
    have hdig : Nat.digits 10 n = [0] := by
      apply map_decDigitChar_inj
        (fun d hd => Nat.digits_lt_base (by norm_num) hd)
        (fun d hd => by simp at hd; omega)
      simpa [decDigitChar] using hmap
    have := congrArg (Nat.ofDigits 10) hdig
    rw [Nat.ofDigits_digits] at this
    simp [Nat.ofDigits] at this
    exact hn this
  · rw [if_neg hn, if_neg hm] at h
    have h1 := List.asString_inj.mp h
    have h2 := List.reverse_injective h1
    have h3 := map_decDigitChar_inj
      (fun d hd => Nat.digits_lt_base (by norm_num) hd)
      (fun d hd => Nat.digits_lt_base (by norm_num) hd) h2
    have h4 := congrArg (Nat.ofDigits 10) h3
    simpa [Nat.ofDigits_digits] using h4

theorem sessionLabel_inj {t1 t2 : Nat}
    (h : sessionLabel t1 = sessionLabel t2) : t1 = t2 := by
  unfold sessionLabel at h
  have hd := congrArg String.data h
  simp only [String.data_append] at hd
  have hcancel := List.append_cancel_left hd
  exact natDecimalRepr_inj (String.ext hcancel)

/-! ### Helper lemmas about the coordinator -/

theorem runWorkers_cons (target : String) (env : ScanEnv) (a : Account)
    (rest : List Account) (s : SharedState) :
    runWorkers target env (a :: rest) s
      = runWorkers target env rest (worker target env a s) := rfl

theorem runWorkers_counter_eq (target : String) (env : ScanEnv) :
    ∀ (completed : List Account) (s : SharedState),
      (runWorkers target env completed s).counter
        = s.counter + completed.length := by
  intro completed
  induction completed with
  | nil => intro s; rfl
  | cons a rest ih =>
    intro s
    rw [runWorkers_cons, ih (worker target env a s)]
    show s.counter + 1 + rest.length = s.counter + (rest.length + 1)
    omega

theorem runWorkers_results_eq (target : String) (env : ScanEnv) :
    ∀ (completed : List Account) (s : SharedState),
      (runWorkers target env completed s).results
        = s.results ++ (completed.map (accountGroup target env)).flatten := by
  intro completed
  induction completed with
  | nil => intro s; simp [runWorkers]
  | cons a rest ih =>
    intro s
    rw [runWorkers_cons, ih (worker target env a s)]
    show s.results ++ accountGroup target env a
        ++ (rest.map (accountGroup target env)).flatten = _
    simp [List.append_assoc]

theorem scan_all_accounts_eq (target : String) (env : ScanEnv)
    (dir : Except String (List RawAccount))
    (sched : List Account → List Account) (s : SharedState) :
    scan_all_accounts target env dir sched s
      = if (get_all_active_accounts dir).isEmpty then (none, s)
        else
          (some (runWorkers target env
              (sched (get_all_active_accounts dir)) s).results,
            runWorkers target env (sched (get_all_active_accounts dir)) s) :=
  rfl

theorem scan_all_accounts_results_extend (target : String) (env : ScanEnv)
    (dir : Except String (List RawAccount))
    (sched : List Account → List Account) (s : SharedState) :
    ∃ t, (scan_all_accounts target env dir sched s).2.results
        = s.results ++ t := by
  rw [scan_all_accounts_eq]
  by_cases h : (get_all_active_accounts dir).isEmpty
  · rw [if_pos h]
    exact ⟨[], by simp⟩
  · rw [if_neg h]
    exact ⟨_, runWorkers_results_eq target env
      (sched (get_all_active_accounts dir)) s⟩

/-! ### Claim theorems -/

/-- C2: the classifier is a pure function; a `none` boundary reference is
never a match; for a present reference the segment after the last '/' is
compared with the target by exact case-sensitive equality — so a matching
short name classifies as a match, a different short name does not, and a
short name differing only in case does not. -/
theorem C2_classify_trailing_segment_case_sensitive :
    (∀ target : String, classify none target = false) ∧
    (∀ (target : String) (a b : List Char), '/' ∉ b →
      classify (some ⟨a ++ '/' :: b⟩) target = (b == target.data)) ∧
    (∀ (target : String) (l : List Char), '/' ∉ l →
      classify (some ⟨l⟩) target = (l == target.data)) ∧
    classify (some "arn:aws:iam::123456789012:policy/X") "X" = true ∧
    classify (some "arn:aws:iam::123456789012:policy/Y") "X" = false ∧
    classify (some "arn:aws:iam::123456789012:policy/x") "X" = false := by
  refine ⟨fun target => rfl, ?_, ?_, by decide, by decide, by decide⟩
  · intro target a b hb
    show (((splitOnChar '/' (a ++ '/' :: b)).getLastD []) == target.data)
        = (b == target.data)
    rw [getLastD_splitOnChar_append a hb]
  · intro target l hl
    show (((splitOnChar '/' l).getLastD []) == target.data)
        = (l == target.data)
    rw [splitOnChar_of_not_mem hl]
    rfl

/-- Witness for C2 at concrete inputs: "pq/X" matches target "X", and a
reference with no '/' is compared whole. -/
theorem C2_classify_witness :
    classify (some ⟨['p', 'q', '/', 'X']⟩) "X" = true ∧
    classify (some ⟨['X']⟩) "X" = true := by
  constructor
  · show classify (some ⟨['p', 'q'] ++ '/' :: ['X']⟩) "X" = true
    rw [C2_classify_trailing_segment_case_sensitive.2.1 "X" ['p', 'q'] ['X']
      (by decide)]
    decide
  · rw [C2_classify_trailing_segment_case_sensitive.2.2.1 "X" ['X'] (by decide)]
    decide

/-- C3: when credential delegation is denied, the account's task returns
exactly one sentinel record with role name "ACCESS_DENIED" and the
NotApplicable status string "N/A", and the result is the same whatever the
role paginator would have done — no enumeration is performed. -/
theorem C3_denied_single_sentinel_no_enumeration
    (target : String) (a : Account) (enum : EnumOutcome) :
    scan_account_roles target a .denied enum
      = [{ account_id := a.Id, account_name := a.Name,
           role_name := "ACCESS_DENIED", has_permission_boundary := "N/A" }] :=
  rfl

/-- Unfolding equation for the successful-enumeration branch of
`scan_account_roles` (gum.py lines 109-143). -/
theorem scan_account_roles_ok_eq (target : String) (a : Account)
    (roles : List RawRole) :
    scan_account_roles target a .granted (.ok roles)
      = if ((roles.filter (roleMatches target)).map
            (fun r => existsRecord a.Id a.Name r.RoleName)).isEmpty then
          [missingSentinel a.Id a.Name roles.length]
        else (roles.filter (roleMatches target)).map
            (fun r => existsRecord a.Id a.Name r.RoleName) := rfl

/-- C1: whatever the external services do, the record set a dispatched
account's task produces is exactly one of: at least one record, all with
status "Exists"; or exactly one sentinel record whose status is "Missing",
"N/A" (NotApplicable), or "Error".  In particular it is never empty and a
sentinel never coexists with Exists records. -/
theorem C1_dispatched_account_record_set_shape
    (target : String) (a : Account) (assumeRes : AssumeOutcome)
    (enum : EnumOutcome) :
    (scan_account_roles target a assumeRes enum ≠ [] ∧
      (scan_account_roles target a assumeRes enum).all
        (fun r => r.has_permission_boundary == "Exists") = true) ∨
    (∃ s, scan_account_roles target a assumeRes enum = [s] ∧
      (s.has_permission_boundary = "Missing" ∨
       s.has_permission_boundary = "N/A" ∨
       s.has_permission_boundary = "Error")) := by
  cases assumeRes with
  | denied => exact Or.inr ⟨_, rfl, Or.inr (Or.inl rfl)⟩
  | granted =>
    cases enum with
    | exnAfter yielded msg => exact Or.inr ⟨_, rfl, Or.inr (Or.inr rfl)⟩
    | ok roles =>
      rw [scan_account_roles_ok_eq]
      by_cases hE : ((roles.filter (roleMatches target)).map
          (fun r => existsRecord a.Id a.Name r.RoleName)).isEmpty
      · rw [if_pos hE]
        exact Or.inr ⟨_, rfl, Or.inl rfl⟩
      · rw [if_neg hE]
        refine Or.inl ⟨?_, ?_⟩
        · intro hnil
          exact hE (by rw [hnil]; rfl)
        · rw [List.all_eq_true]
          intro r hr
          rw [List.mem_map] at hr
          obtain ⟨x, _, rfl⟩ := hr
          rfl

/-- Witness for C1 at a concrete input: a denied account's record set is
not empty. -/
theorem C1_record_set_witness :
    scan_account_roles "X" ⟨"1", "a", "e"⟩ .denied (.ok []) ≠ [] := by
  rcases C1_dispatched_account_record_set_shape "X" ⟨"1", "a", "e"⟩ .denied
      (.ok []) with ⟨h, _⟩ | ⟨s, hs, _⟩
  · exact h
  · rw [hs]
    simp

/-- C4: an exception raised during enumeration is caught inside the task
and converted into exactly one sentinel whose role name is the error
message truncated to 50 characters and whose status is "Error" (the
partially collected tallies are discarded); and an account's published
group depends only on that account's own external outcomes, so one
failing account cannot affect a sibling's records.  The embedding of the
task is a total function, reflecting that no exception escapes it. -/
theorem C4_enumeration_failure_single_error_sentinel_isolated :
    (∀ (target : String) (a : Account) (yielded : List RawRole)
        (msg : String),
      scan_account_roles target a .granted (.exnAfter yielded msg)
        = [{ account_id := a.Id, account_name := a.Name,
             role_name := "ERROR: " ++ msg.take 50 ++ "...",
             has_permission_boundary := "Error" }]) ∧
    (∀ (target : String) (env env2 : ScanEnv) (a : Account),
      env.assumeOf a = env2.assumeOf a → env.enumOf a = env2.enumOf a →
      accountGroup target env a = accountGroup target env2 a) := by
  constructor
  · intro target a yielded msg
    rfl
  · intro target env env2 a h1 h2
    unfold accountGroup
    rw [h1, h2]

set_option maxRecDepth 8192 in
/-- Witness for C4: a concrete mid-page failure yields the single
truncated Error sentinel, and an account's group is unchanged when only
other accounts' outcomes change. -/
theorem C4_enumeration_failure_witness :
    scan_account_roles "X" ⟨"444444444444", "acct4", "e"⟩ .granted
        (.exnAfter [⟨"r", none⟩] "boom")
      = [{ account_id := "444444444444", account_name := "acct4",
           role_name := "ERROR: boom...", has_permission_boundary := "Error" }] ∧
    accountGroup "X" ⟨fun _ => .denied, fun _ => .ok []⟩ ⟨"1", "a", "e"⟩
      = accountGroup "X"
          ⟨fun x => if x.Id = "1" then .denied else .granted,
           fun x => if x.Id = "1" then .ok [] else .exnAfter [] "boom"⟩
          ⟨"1", "a", "e"⟩ := by
  constructor
  · rw [C4_enumeration_failure_single_error_sentinel_isolated.1
      "X" ⟨"444444444444", "acct4", "e"⟩ [⟨"r", none⟩] "boom"]
    decide
  · exact C4_enumeration_failure_single_error_sentinel_isolated.2
      "X" ⟨fun _ => .denied, fun _ => .ok []⟩
      ⟨fun x => if x.Id = "1" then .denied else .granted,
       fun x => if x.Id = "1" then .ok [] else .exnAfter [] "boom"⟩
      ⟨"1", "a", "e"⟩ (by decide) (by decide)

/-- C6: on a reachable account whose enumeration succeeds, if some roles
match the target boundary the task returns exactly those roles, in
order, as records with status "Exists"; if none match it returns exactly
one "Missing" sentinel whose role name embeds the total number of roles
enumerated. -/
theorem C6_matching_roles_or_missing_sentinel_with_count
    (target : String) (a : Account) (roles : List RawRole) :
    (roles.filter (roleMatches target) ≠ [] →
      scan_account_roles target a .granted (.ok roles)
        = (roles.filter (roleMatches target)).map
            (fun r => existsRecord a.Id a.Name r.RoleName)) ∧
    (roles.filter (roleMatches target) = [] →
      scan_account_roles target a .granted (.ok roles)
        = [{ account_id := a.Id, account_name := a.Name,
             role_name := "NO_ROLES_WITH_BOUNDARY ("
               ++ natDecimalRepr roles.length ++ " total roles)",
             has_permission_boundary := "Missing" }]) := by
  constructor
  · intro hne
    rw [scan_account_roles_ok_eq, if_neg ?hne]
    case hne =>
      rw [List.isEmpty_iff, List.map_eq_nil_iff]
      exact hne
  · intro hnil
    rw [scan_account_roles_ok_eq, if_pos ?hnil]
    · rfl
    case hnil =>
      rw [List.isEmpty_iff, List.map_eq_nil_iff]
      exact hnil

/-- Witness for C6: an account with one matching role out of two yields
exactly that Exists record; an account with two roles and no match yields
the single Missing sentinel embedding the count 2. -/
theorem C6_matching_roles_witness :
    scan_account_roles "X" ⟨"333333333333", "c", "e"⟩ .granted
        (.ok [⟨"r1", some "arn:aws:iam::3:policy/X"⟩, ⟨"r2", none⟩])
      = [{ account_id := "333333333333", account_name := "c",
           role_name := "r1", has_permission_boundary := "Exists" }] ∧
    scan_account_roles "X" ⟨"222222222222", "b", "e"⟩ .granted
        (.ok [⟨"r1", some "arn:aws:iam::2:policy/Z"⟩, ⟨"r2", none⟩])
      = [{ account_id := "222222222222", account_name := "b",
           role_name := "NO_ROLES_WITH_BOUNDARY (2 total roles)",
           has_permission_boundary := "Missing" }] := by
  constructor
  · exact ((C6_matching_roles_or_missing_sentinel_with_count "X"
      ⟨"333333333333", "c", "e"⟩
      [⟨"r1", some "arn:aws:iam::3:policy/X"⟩, ⟨"r2", none⟩]).1
      (by decide)).trans (by decide)
  · exact ((C6_matching_roles_or_missing_sentinel_with_count "X"
      ⟨"222222222222", "b", "e"⟩
      [⟨"r1", some "arn:aws:iam::2:policy/Z"⟩, ⟨"r2", none⟩]).2
      (by decide)).trans (by decide)

/-- C9: `assume_role_in_account` is total at its interface — every STS
exception yields `None`, success yields the delegated session, and any two
failures are indistinguishable (both `None`). -/
theorem C9_assume_role_total_none_on_any_failure
    (role_to_assume account_id : String) (now : Nat) :
    (∀ msg, (assume_role_in_account role_to_assume account_id now
        (.exn msg)).2 = none) ∧
    (∀ ak sk tok, (assume_role_in_account role_to_assume account_id now
        (.ok ak sk tok)).2
      = some { aws_access_key_id := ak, aws_secret_access_key := sk,
               aws_session_token := tok }) ∧
    (∀ msg1 msg2,
      (assume_role_in_account role_to_assume account_id now (.exn msg1)).2
        = (assume_role_in_account role_to_assume account_id now (.exn msg2)).2) :=
  ⟨fun _ => rfl, fun _ _ _ => rfl, fun _ _ => rfl⟩

/-- C7: every mutation of the shared state is one lock-guarded `worker`
step that appends the finished task's records and advances the progress
counter together, so in every observable state — `runWorkers` over any
completion sequence — the counter's advance equals the number of record
groups published, and the published records are exactly the concatenation
of those groups: the counter can never outpace the records or lag behind
them. -/
theorem C7_lock_atomic_counter_matches_published_records
    (target : String) (env : ScanEnv) (completed : List Account)
    (s : SharedState) :
    (runWorkers target env completed s).counter
        = s.counter + completed.length ∧
    (runWorkers target env completed s).results
        = s.results ++ (completed.map (accountGroup target env)).flatten :=
  ⟨runWorkers_counter_eq target env completed s,
   runWorkers_results_eq target env completed s⟩

/-- C5: when the directory listing raises, `get_all_active_accounts`
returns no accounts; and whenever the account list is empty,
`scan_all_accounts` returns `none` (Python `None`, the failure signal to
the caller) with the shared state untouched — no worker is dispatched and
the run carries no records. -/
theorem C5_empty_directory_aborts_without_workers :
    (∀ msg, get_all_active_accounts (Except.error msg) = []) ∧
    (∀ (target : String) (env : ScanEnv)
        (dir : Except String (List RawAccount))
        (sched : List Account → List Account) (s : SharedState),
      get_all_active_accounts dir = [] →
      scan_all_accounts target env dir sched s = (none, s)) := by
  constructor
  · intro msg
    rfl
  · intro target env dir sched s h
    rw [scan_all_accounts_eq, h]
    rfl

/-- Witness for C5: a failing directory listing makes the entry point
return the failure signal and leave the state untouched. -/
theorem C5_empty_directory_witness :
    scan_all_accounts "X" ⟨fun _ => .denied, fun _ => .ok []⟩
        (Except.error "ListAccounts failed") id ⟨[], 0⟩
      = (none, ⟨[], 0⟩) :=
  C5_empty_directory_aborts_without_workers.2 "X"
    ⟨fun _ => .denied, fun _ => .ok []⟩ (Except.error "ListAccounts failed")
    id ⟨[], 0⟩
    (C5_empty_directory_aborts_without_workers.1 "ListAccounts failed")

/-- C10: the shared result collection only ever grows — each invocation of
`scan_all_accounts` leaves the records already present as a prefix of the
final collection, and a second invocation on the same scanner state
returns a collection that still contains every record of the first
invocation. -/
theorem C10_results_append_only_across_invocations
    (target : String) (env1 env2 : ScanEnv)
    (dir1 dir2 : Except String (List RawAccount))
    (sched1 sched2 : List Account → List Account) (s0 : SharedState) :
    (∃ t1, (scan_all_accounts target env1 dir1 sched1 s0).2.results
        = s0.results ++ t1) ∧
    (∃ t2, (scan_all_accounts target env2 dir2 sched2
          (scan_all_accounts target env1 dir1 sched1 s0).2).2.results
        = (scan_all_accounts target env1 dir1 sched1 s0).2.results ++ t2) ∧
    (∀ l, (scan_all_accounts target env2 dir2 sched2
          (scan_all_accounts target env1 dir1 sched1 s0).2).1 = some l →
      ∀ r ∈ (scan_all_accounts target env1 dir1 sched1 s0).2.results,
        r ∈ l) := by
  refine ⟨scan_all_accounts_results_extend target env1 dir1 sched1 s0,
    scan_all_accounts_results_extend target env2 dir2 sched2 _, ?_⟩
  intro l hl r hr
  obtain ⟨t2, ht2⟩ := scan_all_accounts_results_extend target env2 dir2
    sched2 (scan_all_accounts target env1 dir1 sched1 s0).2
  have hsome : l = (scan_all_accounts target env2 dir2 sched2
      (scan_all_accounts target env1 dir1 sched1 s0).2).2.results := by
    rw [scan_all_accounts_eq] at hl ⊢
    by_cases h : (get_all_active_accounts dir2).isEmpty
    · rw [if_pos h] at hl
      exact absurd hl (by simp)
    · rw [if_neg h] at hl ⊢
      exact (Option.some.inj hl).symm
  rw [hsome, ht2]
  exact List.mem_append_left _ hr

/-- Witness for C10: after a first run publishes account 1's sentinel, a
second run over account 2 returns a collection still containing it. -/
theorem C10_results_append_only_witness :
    ({ account_id := "1", account_name := "a", role_name := "ACCESS_DENIED",
       has_permission_boundary := "N/A" } : RoleInfo)
      ∈ [({ account_id := "1", account_name := "a",
            role_name := "ACCESS_DENIED",
            has_permission_boundary := "N/A" } : RoleInfo),
         ({ account_id := "2", account_name := "b",
            role_name := "ACCESS_DENIED",
            has_permission_boundary := "N/A" } : RoleInfo)] :=
  (C10_results_append_only_across_invocations "X"
      ⟨fun _ => .denied, fun _ => .ok []⟩ ⟨fun _ => .denied, fun _ => .ok []⟩
      (Except.ok [⟨"1", "a", "e", "ACTIVE"⟩])
      (Except.ok [⟨"2", "b", "e", "ACTIVE"⟩]) id id ⟨[], 0⟩).2.2
    [({ account_id := "1", account_name := "a", role_name := "ACCESS_DENIED",
        has_permission_boundary := "N/A" } : RoleInfo),
     ({ account_id := "2", account_name := "b", role_name := "ACCESS_DENIED",
        has_permission_boundary := "N/A" } : RoleInfo)]
    (by decide)
    ({ account_id := "1", account_name := "a", role_name := "ACCESS_DENIED",
       has_permission_boundary := "N/A" } : RoleInfo)
    (by decide)

/-- C8 as stated is false: the session label is derived from the epoch
time truncated to whole seconds, so two calls — e.g. two concurrent
workers — that read the same second construct identical labels.  Here a
run whose two credential-exchange calls both read epoch second 1700000000
produces two equal session labels, refuting pairwise distinctness. -/
theorem C8_counterexample_same_second_label_collision :
    ¬ (∀ times : List Nat,
        (times.map sessionLabel).Pairwise (fun x y => x ≠ y)) := by
  intro h
  have h2 := h [1700000000, 1700000000]
  rw [List.map_cons, List.map_cons, List.map_nil,
    List.pairwise_cons] at h2
  exact h2.1 (sessionLabel 1700000000) (by simp) rfl

/-- C8 amended: every credential-exchange call constructs the role
reference from the account id and the fixed role name and labels the
session with the epoch-second timestamp; the labels of two calls are
distinct whenever their epoch-second timestamps are distinct (uniqueness
holds across seconds, not between concurrent calls within one second). -/
theorem C8_amended_label_unique_across_distinct_seconds :
    (∀ (role_to_assume account_id : String) (now : Nat) (sts : StsOutcome),
      (assume_role_in_account role_to_assume account_id now sts).1
        = { RoleArn := "arn:aws:iam::" ++ account_id ++ ":role/"
              ++ role_to_assume,
            RoleSessionName := sessionLabel now }) ∧
    (∀ t1 t2 : Nat, t1 ≠ t2 → sessionLabel t1 ≠ sessionLabel t2) := by
  constructor
  · intro role acc now sts
    cases sts <;> rfl
  · intro t1 t2 hne heq
    exact hne (sessionLabel_inj heq)

/-- Witness for the amended C8: a concrete call's constructed request,
and two distinct seconds giving distinct labels. -/
theorem C8_amended_witness :
    (assume_role_in_account "ca-iam-cie-engineer" "111111111111" 7
        (.exn "AccessDenied")).1
      = { RoleArn := "arn:aws:iam::111111111111:role/ca-iam-cie-engineer",
          RoleSessionName := "permission-boundary-scan-7" } ∧
    sessionLabel 0 ≠ sessionLabel 1 := by
  constructor
  · rw [C8_amended_label_unique_across_distinct_seconds.1
      "ca-iam-cie-engineer" "111111111111" 7 (.exn "AccessDenied")]
    decide
  · exact C8_amended_label_unique_across_distinct_seconds.2 0 1 (by decide)

end Gum
